import Mathlib

/-!
Shallow embedding of the `ig-to-youtube` repository
(`seo_utils.py` and `uploader.py`) with verification of its
natural-language specification.

Strings are modelled as `List Char` (Python `str` values), and Python's
`%` on integers with a positive modulus is modelled by `Int.emod`, which
agrees with Python's semantics there (result in `[0, n)`).
-/

namespace IgToYt

/-! ## Character classes

`isPySpace` models the character class matched by Python's `str.strip()`
and the regex `\s` on `str` patterns: ASCII whitespace plus the Unicode
whitespace code points. -/

def isPySpace (c : Char) : Bool :=
  c = ' ' || c = '\t' || c = '\n' || c = '\r' || c = '\x0b' || c = '\x0c' ||
  c = '\x1c' || c = '\x1d' || c = '\x1e' || c = '\x1f' || c = '\x85' ||
  c = '\xa0' || c = ' ' || c = ' ' || c = ' ' || c = ' ' ||
  c = ' ' || c = ' ' || c = ' ' || c = ' ' || c = ' ' ||
  c = ' ' || c = ' ' || c = ' ' || c = ' ' || c = ' ' ||
  c = ' ' || c = ' ' || c = '　'

/-- The character class of the regex `[A-Za-z0-9]` in `seo_utils.py`. -/
def isAlnumAscii (c : Char) : Bool :=
  ('A' ≤ c && c ≤ 'Z') || ('a' ≤ c && c ≤ 'z') || ('0' ≤ c && c ≤ '9')

/-- ASCII decimal digit, the per-character test behind Python's
`str.isdigit` restricted to the tokens produced by `[A-Za-z0-9]+`. -/
def isDigitAscii (c : Char) : Bool :=
  '0' ≤ c && c ≤ '9'

/-- Python `str.lower()` per character (a character may lowercase to a
string).  The mapping is exact on every character whose lowercase form
differs from it and contains an ASCII letter or digit — the ASCII
uppercase letters, U+212A KELVIN SIGN (→ `"k"`) and U+0130 LATIN
CAPITAL LETTER I WITH DOT ABOVE (→ `"i"` followed by U+0307); every
other character is kept.  For the remaining characters Python lowercases
some of them to other non-ASCII characters, but both the character and
its lowercase form lie outside `[A-Za-z0-9]`, so keeping them is
indistinguishable through the `[A-Za-z0-9]+` tokenization, the only use
this program makes of `lower()`. -/
def pyLowerChar (c : Char) : List Char :=
  match c with
  | 'A' => ['a'] | 'B' => ['b'] | 'C' => ['c'] | 'D' => ['d'] | 'E' => ['e']
  | 'F' => ['f'] | 'G' => ['g'] | 'H' => ['h'] | 'I' => ['i'] | 'J' => ['j']
  | 'K' => ['k'] | 'L' => ['l'] | 'M' => ['m'] | 'N' => ['n'] | 'O' => ['o']
  | 'P' => ['p'] | 'Q' => ['q'] | 'R' => ['r'] | 'S' => ['s'] | 'T' => ['t']
  | 'U' => ['u'] | 'V' => ['v'] | 'W' => ['w'] | 'X' => ['x'] | 'Y' => ['y']
  | 'Z' => ['z']
  | 'K' => ['k']
  | 'İ' => ['i', '̇']
  | c => [c]

/-- Python `str.lower()` on a whole string: the concatenation of the
per-character lowercase forms. -/
def pyLower : List Char → List Char
  | [] => []
  | c :: cs => pyLowerChar c ++ pyLower cs

/-- The line-boundary characters of Python `str.splitlines()`. -/
def isLineBoundary (c : Char) : Bool :=
  c = '\n' || c = '\r' || c = '\x0b' || c = '\x0c' || c = '\x1c' ||
  c = '\x1d' || c = '\x1e' || c = '\x85' || c = ' ' || c = ' '

/-! ## `seo_utils._sanitize_text` -/

/-- Python `str.strip()`: drop leading and trailing whitespace. -/
def pyStrip (s : List Char) : List Char :=
  ((s.dropWhile isPySpace).reverse.dropWhile isPySpace).reverse

/-- Worker for `re.sub(r"\s+", " ", text)`: the Boolean argument records
whether the previous character was part of a whitespace run already
replaced by a single `' '`. -/
def collapseAux : List Char → Bool → List Char
  | [], _ => []
  | c :: cs, inRun =>
    if isPySpace c then
      if inRun then collapseAux cs true else ' ' :: collapseAux cs true
    else c :: collapseAux cs false

/-- `re.sub(r"\s+", " ", text)`: replace each maximal whitespace run by a
single space. -/
def collapseWs (s : List Char) : List Char :=
  collapseAux s false

/-- Python `text.rsplit(" ", 1)[0]`: everything strictly before the last
space, or the whole string when it contains no space. -/
def rsplitLastSpace (s : List Char) : List Char :=
  if ' ' ∈ s then ((s.reverse.dropWhile (fun c => c != ' ')).drop 1).reverse
  else s

/-- `seo_utils._sanitize_text(text, max_len)`. -/
def _sanitize_text (s : List Char) (maxLen : Nat) : List Char :=
  if s = [] then []
  else
    let t := collapseWs (pyStrip s)
    if maxLen < t.length then rsplitLastSpace (t.take maxLen) else t

/-! ## `seo_utils.generate_seo_from_caption` -/

/-- Worker for `re.findall(r"[A-Za-z0-9]+", s)`: `cur` is the current run
of alphanumeric characters, accumulated in reverse. -/
def findallAux : List Char → List Char → List (List Char)
  | [], cur => if cur = [] then [] else [cur.reverse]
  | c :: cs, cur =>
    if isAlnumAscii c then findallAux cs (c :: cur)
    else if cur = [] then findallAux cs []
    else cur.reverse :: findallAux cs []

/-- `re.findall(r"[A-Za-z0-9]+", s)`: the maximal runs of ASCII
letters/digits, in order. -/
def findallAlnum (s : List Char) : List (List Char) :=
  findallAux s []

/-- The stopword set of `generate_seo_from_caption`. -/
def stopwords : List (List Char) :=
  ["the".toList, "and".toList, "a".toList, "to".toList, "in".toList,
   "of".toList, "for".toList, "on".toList, "is".toList, "with".toList,
   "this".toList, "that".toList, "it".toList, "you".toList, "from".toList,
   "are".toList, "as".toList, "be".toList, "at".toList, "by".toList,
   "an".toList, "or".toList, "have".toList, "was".toList, "but".toList,
   "not".toList]

/-- Python `w.isdigit()` for the ASCII tokens produced by the findall. -/
def isDigitStr (w : List Char) : Bool :=
  w ≠ [] && w.all isDigitAscii

/-- The tag-collection loop of `generate_seo_from_caption`: filter out
short, numeric and stopword tokens, append first occurrences, and break
once 15 tags are collected. -/
def tagsLoop : List (List Char) → List (List Char) → List (List Char)
  | [], tags => tags
  | w :: ws, tags =>
    if w.length < 3 then tagsLoop ws tags
    else if isDigitStr w then tagsLoop ws tags
    else if w ∈ stopwords then tagsLoop ws tags
    else
      let tags1 := if w ∈ tags then tags else tags ++ [w]
      if 15 ≤ tags1.length then tags1 else tagsLoop ws tags1

/-- Worker for Python `str.splitlines()`; `cur` holds the current line in
reverse.  `"\r\n"` counts as a single boundary, and a trailing boundary
produces no trailing empty line. -/
def splitlinesAux : List Char → List Char → List (List Char)
  | [], cur => if cur = [] then [] else [cur.reverse]
  | '\r' :: '\n' :: rest, cur => cur.reverse :: splitlinesAux rest []
  | c :: cs, cur =>
    if isLineBoundary c then cur.reverse :: splitlinesAux cs []
    else splitlinesAux cs (c :: cur)

/-- Python `str.splitlines()`. -/
def pySplitlines (s : List Char) : List (List Char) :=
  splitlinesAux s []

/-- `caption.splitlines()[0] if caption.splitlines() else caption`. -/
def firstLineSrc (caption : List Char) : List Char :=
  match pySplitlines caption with
  | [] => caption
  | l :: _ => l

/-- The fixed call-to-action footer appended to every description. -/
def ctaFooter : List Char :=
  "Reposted with permission from the creator.\nLike, comment & subscribe for more! ❤️".toList

/-- `generate_seo_from_caption(caption)`, returning
`(title, description, tags)`. -/
def generate_seo_from_caption (caption : List Char) :
    List Char × List Char × List (List Char) :=
  let title0 := _sanitize_text (firstLineSrc caption) 70
  let title := if title0 = [] then "Short video".toList else title0
  let stripped := pyStrip caption
  let description :=
    (if stripped = [] then [] else stripped ++ "\n\n".toList) ++ ctaFooter
  let words := findallAlnum (pyLower caption)
  let tags := tagsLoop words []
  (title, description, tags)

/-! ## `uploader.py` -/

/-- `uploader.get_youtube_service`: raises (`Except.error`) when one of
`YT_CLIENT_ID`, `YT_CLIENT_SECRET`, `YT_REFRESH_TOKEN` is missing, and
propagates a failure of the credential refresh (`creds.refresh`);
otherwise returns the service (modelled as `Unit`). -/
def get_youtube_service (clientId clientSecret refreshToken : Option String)
    (refreshOk : Bool) : Except String Unit :=
  if ¬(clientId.isSome ∧ clientSecret.isSome ∧ refreshToken.isSome) then
    Except.error "YouTube credentials missing."
  else if ¬refreshOk then Except.error "refresh failed"
  else Except.ok ()

/-- Environment of one `run_one_upload` call: the length of the video
post list, the state file (absent, or present holding `next_index`), the
publish credentials, and the outcome of each effectful step. -/
structure Env where
  posts : Nat
  statePresent : Bool
  storedIndex : Int
  fetchOk : Bool
  ytClientId : Option String
  ytClientSecret : Option String
  ytRefreshToken : Option String
  refreshOk : Bool
  uploadOk : Bool
  archiveOk : Bool

/-- How `run_one_upload` terminates: a `return` with a Boolean, or an
exception propagating out of the function uncaught. -/
inductive RunOutcome where
  | returned (success : Bool)
  | raised
deriving DecidableEq, Repr

/-- Observable effects of one `run_one_upload` call. -/
structure RunResult where
  outcome : RunOutcome
  /-- Content of `state.json` after the run (`none` = file absent). -/
  finalState : Option Int
  /-- Every `next_index` value written to the state file during the run,
  in order (including the `{"next_index": 0}` created by `load_state`
  when the file was absent). -/
  writes : List Int
  /-- The `index` selected (`none` when the run exits before selecting). -/
  selectedIndex : Option Int
  /-- Whether `get_youtube_service` was called. -/
  authAttempted : Bool
  /-- Whether `upload_video_to_youtube` was called. -/
  uploadAttempted : Bool
  /-- Whether the upload succeeded (the video is published). -/
  publishDone : Bool
deriving DecidableEq, Repr

/-- `uploader.run_one_upload`, one branch per early exit of the source:
empty post list; download failure (advance and persist, then return);
auth failure (return, no state change); upload failure (return, no state
change); archive-move failure (uncaught exception); full success
(advance and persist). -/
def run_one_upload (e : Env) : RunResult :=
  if e.posts = 0 then
    { outcome := .returned false
      finalState := if e.statePresent then some e.storedIndex else none
      writes := [], selectedIndex := none
      authAttempted := false, uploadAttempted := false, publishDone := false }
  else
    let st0 : Int := if e.statePresent then e.storedIndex else 0
    let initWrites : List Int := if e.statePresent then [] else [0]
    let index : Int := st0 % (e.posts : Int)
    if e.fetchOk = false then
      let nx : Int := (index + 1) % (e.posts : Int)
      { outcome := .returned false, finalState := some nx
        writes := initWrites ++ [nx], selectedIndex := some index
        authAttempted := false, uploadAttempted := false, publishDone := false }
    else if ¬(get_youtube_service e.ytClientId e.ytClientSecret
        e.ytRefreshToken e.refreshOk).isOk then
      { outcome := .returned false, finalState := some st0
        writes := initWrites, selectedIndex := some index
        authAttempted := true, uploadAttempted := false, publishDone := false }
    else if e.uploadOk = false then
      { outcome := .returned false, finalState := some st0
        writes := initWrites, selectedIndex := some index
        authAttempted := true, uploadAttempted := true, publishDone := false }
    else if e.archiveOk = false then
      { outcome := .raised, finalState := some st0
        writes := initWrites, selectedIndex := some index
        authAttempted := true, uploadAttempted := true, publishDone := true }
    else
      let nx : Int := (index + 1) % (e.posts : Int)
      { outcome := .returned true, finalState := some nx
        writes := initWrites ++ [nx], selectedIndex := some index
        authAttempted := true, uploadAttempted := true, publishDone := true }

/-! ## Specification-side definitions

These follow the wording of the specification, to be compared with the
definitions embedded from the source. -/

/-- Whether a token survives the tag filter: length at least 3, not
purely numeric, not a stopword. -/
def qualifies (w : List Char) : Bool :=
  decide (3 ≤ w.length) && !(isDigitStr w) && !(decide (w ∈ stopwords))

/-- Stable de-duplication keeping the first occurrence of each element,
in order of first appearance (the spec's description of tag dedup). -/
def dedupKeepFirst : List (List Char) → List (List Char)
  | [] => []
  | w :: ws => w :: (dedupKeepFirst ws).filter (fun x => !(decide (x = w)))

/-- The claim's reading of the title rule: the first line is the text up
to the first newline character (`'\n'`), or the whole caption if there
is none. -/
def titleByNewlineClaim (caption : List Char) : List Char :=
  let t := _sanitize_text (caption.takeWhile (fun c => !(decide (c = '\n')))) 70
  if t = [] then "Short video".toList else t

/-- The claim's reading of the tag rule: extract the maximal runs of
ASCII letters/digits from the caption itself, lowercase each run, filter
by `qualifies`, de-duplicate keeping first occurrences, and keep the
first 15. -/
def tagsByClaimC5 (caption : List Char) : List (List Char) :=
  (dedupKeepFirst (((findallAlnum caption).map pyLower).filter
    qualifies)).take 15

/-- The relation "not both characters are whitespace", holding between
all adjacent characters of a string with no whitespace run of length 2. -/
def NoWsRun (l : List Char) : Prop :=
  List.Chain' (fun a b => ¬(isPySpace a = true ∧ isPySpace b = true)) l

/-! ## Concrete environments used as counterexamples -/

/-- A run over 2 posts with stored `next_index = 0` in which everything
succeeds up to the YouTube upload, which fails. -/
def envUploadFail : Env :=
  { posts := 2, statePresent := true, storedIndex := 0, fetchOk := true,
    ytClientId := some "id", ytClientSecret := some "secret",
    ytRefreshToken := some "token", refreshOk := true,
    uploadOk := false, archiveOk := true }

/-- A run over 2 posts with stored `next_index = 0` in which everything
succeeds up to the archive move, which fails. -/
def envArchiveFail : Env :=
  { posts := 2, statePresent := true, storedIndex := 0, fetchOk := true,
    ytClientId := some "id", ytClientSecret := some "secret",
    ytRefreshToken := some "token", refreshOk := true,
    uploadOk := true, archiveOk := false }

/-- A fully successful run over `n` posts with stored `next_index = k`. -/
def envOk (n : Nat) (k : Int) : Env :=
  { posts := n, statePresent := true, storedIndex := k, fetchOk := true,
    ytClientId := some "id", ytClientSecret := some "secret",
    ytRefreshToken := some "token", refreshOk := true,
    uploadOk := true, archiveOk := true }

/-- A run over 3 posts with stored `next_index = 1` whose download
fails. -/
def envFetchFail : Env :=
  { posts := 3, statePresent := true, storedIndex := 1, fetchOk := false,
    ytClientId := none, ytClientSecret := none, ytRefreshToken := none,
    refreshOk := false, uploadOk := false, archiveOk := false }

/-- A run over 2 posts with stored `next_index = 1` in which the fetch
succeeds but the YouTube client id is missing, so service creation
fails. -/
def envAuthFail : Env :=
  { posts := 2, statePresent := true, storedIndex := 1, fetchOk := true,
    ytClientId := none, ytClientSecret := some "secret",
    ytRefreshToken := some "token", refreshOk := true,
    uploadOk := true, archiveOk := true }

/-! ## Helper lemmas about the uploader -/

lemma mem_writes (e : Env) (v : Int) (hv : v ∈ (run_one_upload e).writes) :
    v = 0 ∨ v = ((if e.statePresent then e.storedIndex else 0) % (e.posts : Int) + 1)
      % (e.posts : Int) := by
  simp only [run_one_upload] at hv
  split at hv
  · simp at hv
  · split at hv
    · by_cases hsp : e.statePresent = true <;> simp_all
    · split at hv
      · by_cases hsp : e.statePresent = true <;> simp_all
      · split at hv
        · by_cases hsp : e.statePresent = true <;> simp_all
        · split at hv
          · by_cases hsp : e.statePresent = true <;> simp_all
          · by_cases hsp : e.statePresent = true <;> simp_all

lemma writes_nil_of_no_posts (e : Env) (hp : e.posts = 0) :
    (run_one_upload e).selectedIndex = none ∧ (run_one_upload e).writes = [] := by
  simp [run_one_upload, hp]

lemma selectedIndex_of_pos (e : Env) (hp : e.posts ≠ 0) :
    (run_one_upload e).selectedIndex =
      some ((if e.statePresent then e.storedIndex else 0) % (e.posts : Int)) := by
  simp only [run_one_upload]
  split
  · omega
  · split <;> [rfl; (split <;> [rfl; (split <;> [rfl; (split <;> rfl)])])]

/-! ## Theorems for the claims about `run_one_upload` -/

/-- C9: every `next_index` value that `run_one_upload` writes to the
state file lies in `[0, len(posts))` for that run's post list, and when
the post list is empty no item is selected and nothing is written, so
the modulo operations on the list length are unreachable. -/
theorem C9_next_index_writes_in_range (e : Env) :
    (∀ v ∈ (run_one_upload e).writes, 0 ≤ v ∧ v < (e.posts : Int))
    ∧ (e.posts = 0 → (run_one_upload e).selectedIndex = none
        ∧ (run_one_upload e).writes = []) := by
  constructor
  · intro v hv
    by_cases hp : e.posts = 0
    · rw [(writes_nil_of_no_posts e hp).2] at hv
      simp at hv
    · have hpos : (0 : Int) < (e.posts : Int) := by
        exact_mod_cast Nat.pos_of_ne_zero hp
      rcases mem_writes e v hv with rfl | rfl
      · exact ⟨le_refl 0, hpos⟩
      · exact ⟨Int.emod_nonneg _ (by omega), Int.emod_lt_of_pos _ hpos⟩
  · exact writes_nil_of_no_posts e

/-- Witness for C9: in a 3-post run with stored index 1 whose fetch
fails, the single advance write `2` is within `[0, 3)`. -/
theorem C9_witness : (0 : Int) ≤ 2 ∧ (2 : Int) < ((3 : Nat) : Int) :=
  (C9_next_index_writes_in_range envFetchFail).1 2 (by decide)

/-- C3: when the download of the selected post fails, `run_one_upload`
sets `next_index` to `(index + 1) mod len(posts)`, persists it, and
returns a reported non-fatal failure without attempting YouTube
authentication or upload. -/
theorem C3_fetch_failure_skips_item (e : Env) (hp : 0 < e.posts)
    (hf : e.fetchOk = false) :
    (run_one_upload e).outcome = .returned false
    ∧ (run_one_upload e).finalState =
        some (((if e.statePresent then e.storedIndex else 0) % (e.posts : Int) + 1)
          % (e.posts : Int))
    ∧ (run_one_upload e).writes =
        (if e.statePresent then ([] : List Int) else [0])
          ++ [((if e.statePresent then e.storedIndex else 0) % (e.posts : Int) + 1)
            % (e.posts : Int)]
    ∧ (run_one_upload e).authAttempted = false
    ∧ (run_one_upload e).uploadAttempted = false := by
  have hp' : ¬ e.posts = 0 := by omega
  simp [run_one_upload, hp', hf]

/-- Witness for C3: 3 posts, stored index 1, fetch fails: the run
reports failure, persists `2` and never reaches the publish phase. -/
theorem C3_witness :
    (run_one_upload envFetchFail).outcome = .returned false
    ∧ (run_one_upload envFetchFail).finalState = some 2
    ∧ (run_one_upload envFetchFail).writes = [2]
    ∧ (run_one_upload envFetchFail).authAttempted = false
    ∧ (run_one_upload envFetchFail).uploadAttempted = false := by
  have h := C3_fetch_failure_skips_item envFetchFail (by decide) rfl
  simpa using h

/-- C8: when creating the YouTube service fails (the credential refresh
fails, or a required credential is missing — `get_youtube_service` with
a missing client id always fails), the run is reported failed and
aborted without advancing or persisting the cursor: the state file's
`next_index` is unchanged. -/
theorem C8_auth_failure_no_advance (e : Env) (hp : 0 < e.posts)
    (hs : e.statePresent = true) (hf : e.fetchOk = true)
    (ha : (get_youtube_service e.ytClientId e.ytClientSecret e.ytRefreshToken
      e.refreshOk).isOk = false) :
    ((run_one_upload e).outcome = .returned false
      ∧ (run_one_upload e).writes = []
      ∧ (run_one_upload e).finalState = some e.storedIndex
      ∧ (run_one_upload e).publishDone = false)
    ∧ (∀ cs rt b, (get_youtube_service none cs rt b).isOk = false) := by
  constructor
  · have hp' : ¬ e.posts = 0 := by omega
    simp [run_one_upload, hp', hf, hs, ha]
  · intro cs rt b
    rfl

/-- Witness for C8: missing client id aborts the run and leaves the
stored index 1 untouched. -/
theorem C8_witness :
    (run_one_upload envAuthFail).outcome = .returned false
    ∧ (run_one_upload envAuthFail).writes = []
    ∧ (run_one_upload envAuthFail).finalState = some 1 := by
  have h := C8_auth_failure_no_advance envAuthFail (by decide) rfl rfl (by decide)
  exact ⟨h.1.1, h.1.2.1, h.1.2.2.1⟩

/-- C4: for every stored `next_index = k ≥ 0` and non-empty post list of
length `n`, selection computes `index = k mod n`, and a successful run
persists `(index + 1) mod n`. -/
theorem C4_select_and_advance_mod (e : Env) (n : Nat) (k : Int)
    (hn : e.posts = n) (hpos : 0 < n) (hs : e.statePresent = true)
    (hk : e.storedIndex = k) (h0 : 0 ≤ k) :
    (run_one_upload e).selectedIndex = some (k % (n : Int))
    ∧ (e.fetchOk = true →
        (get_youtube_service e.ytClientId e.ytClientSecret e.ytRefreshToken
          e.refreshOk).isOk = true →
        e.uploadOk = true → e.archiveOk = true →
        (run_one_upload e).finalState = some ((k % (n : Int) + 1) % (n : Int))) := by
  have hp' : e.posts ≠ 0 := by omega
  constructor
  · rw [selectedIndex_of_pos e hp', hs, hk, hn]
    simp
  · intro hf ha hu har
    have hn0 : ¬ n = 0 := by omega
    simp [run_one_upload, hp', hf, ha, hu, har, hs, hk, hn, hn0]

/-- Witness for C4, covering both spec examples: stored index 4 over a
2-item list selects index 0, and a successful run over a 3-item list
with index 2 wraps the cursor to 0. -/
theorem C4_witness :
    (run_one_upload (envOk 2 4)).selectedIndex = some 0
    ∧ (run_one_upload (envOk 3 2)).finalState = some 0 := by
  constructor
  · have h := (C4_select_and_advance_mod (envOk 2 4) 2 4 rfl (by decide) rfl rfl
      (by decide)).1
    simpa using h
  · have h := (C4_select_and_advance_mod (envOk 3 2) 3 2 rfl (by decide) rfl rfl
      (by decide)).2 rfl (by decide) rfl rfl
    simpa using h

/-- C1 as stated is false of the code: with 2 posts and stored index 0,
a run whose YouTube upload fails returns a reported failure but writes
nothing to the state file, so the cursor is not advanced to
`(0 + 1) mod 2 = 1`. -/
theorem C1_counterexample :
    (run_one_upload envUploadFail).outcome = .returned false
    ∧ (run_one_upload envUploadFail).uploadAttempted = true
    ∧ (run_one_upload envUploadFail).writes = []
    ∧ (run_one_upload envUploadFail).finalState = some 0
    ∧ ¬ (run_one_upload envUploadFail).finalState = some ((0 + 1) % (2 : Int)) := by
  decide

/-- C1 (amended): if the publish step fails after the item was fetched,
the run is reported as failed and the cursor is NOT advanced or
persisted — the state file keeps its prior `next_index`, so the same
item is selected again on the next run. -/
theorem C1_amended_upload_failure_no_advance (e : Env) (hp : 0 < e.posts)
    (hf : e.fetchOk = true)
    (ha : (get_youtube_service e.ytClientId e.ytClientSecret e.ytRefreshToken
      e.refreshOk).isOk = true)
    (hu : e.uploadOk = false) (hs : e.statePresent = true) :
    (run_one_upload e).outcome = .returned false
    ∧ (run_one_upload e).uploadAttempted = true
    ∧ (run_one_upload e).publishDone = false
    ∧ (run_one_upload e).writes = []
    ∧ (run_one_upload e).finalState = some e.storedIndex := by
  have hp' : ¬ e.posts = 0 := by omega
  simp [run_one_upload, hp', hf, ha, hu, hs]

/-- Witness for the amended C1 at the concrete failing-upload run. -/
theorem C1_amended_witness :
    (run_one_upload envUploadFail).writes = []
    ∧ (run_one_upload envUploadFail).finalState = some 0 := by
  have h := C1_amended_upload_failure_no_advance envUploadFail (by decide) rfl
    (by decide) rfl rfl
  exact ⟨h.2.2.2.1, h.2.2.2.2⟩

/-- C2 as stated is false of the code: with 2 posts and stored index 0,
a run whose archive move fails does not continue non-fatally — the
exception propagates out of `run_one_upload` — and the cursor is not
advanced to `(0 + 1) mod 2 = 1` and not persisted. -/
theorem C2_counterexample :
    (run_one_upload envArchiveFail).outcome = .raised
    ∧ (run_one_upload envArchiveFail).publishDone = true
    ∧ (run_one_upload envArchiveFail).writes = []
    ∧ (run_one_upload envArchiveFail).finalState = some 0
    ∧ ¬ (run_one_upload envArchiveFail).outcome = .returned true
    ∧ ¬ (run_one_upload envArchiveFail).finalState = some ((0 + 1) % (2 : Int)) := by
  decide

/-- C2 (amended): if the archive move fails after a successful publish,
the exception propagates uncaught out of `run_one_upload`; the publish
is not rolled back, but the cursor is NOT advanced or persisted, so the
already-published item will be selected again on the next run. -/
theorem C2_amended_archive_failure_raises (e : Env) (hp : 0 < e.posts)
    (hf : e.fetchOk = true)
    (ha : (get_youtube_service e.ytClientId e.ytClientSecret e.ytRefreshToken
      e.refreshOk).isOk = true)
    (hu : e.uploadOk = true) (har : e.archiveOk = false)
    (hs : e.statePresent = true) :
    (run_one_upload e).outcome = .raised
    ∧ (run_one_upload e).publishDone = true
    ∧ (run_one_upload e).writes = []
    ∧ (run_one_upload e).finalState = some e.storedIndex := by
  have hp' : ¬ e.posts = 0 := by omega
  simp [run_one_upload, hp', hf, ha, hu, har, hs]

/-- Witness for the amended C2 at the concrete failing-archive run. -/
theorem C2_amended_witness :
    (run_one_upload envArchiveFail).outcome = .raised
    ∧ (run_one_upload envArchiveFail).finalState = some 0 := by
  have h := C2_amended_archive_failure_raises envArchiveFail (by decide) rfl
    (by decide) rfl rfl rfl
  exact ⟨h.1, h.2.2.2⟩

/-! ## Character-level lemmas -/

lemma isPySpace_not_alnum (c : Char) (h : isPySpace c = true) :
    isAlnumAscii c = false := by
  simp only [isPySpace, Bool.or_eq_true, decide_eq_true_eq] at h
  rcases h with
    ((((((((((((((((((((((((((((rfl | rfl) | rfl) | rfl) | rfl) | rfl) | rfl) | rfl) | rfl) | rfl) | rfl) | rfl) | rfl) | rfl) | rfl) | rfl) | rfl) | rfl) | rfl) | rfl) | rfl) | rfl) | rfl) | rfl) | rfl) | rfl) | rfl) | rfl) | rfl) <;> rfl

lemma pyLowerChar_of_space (c : Char) (h : isPySpace c = true) :
    pyLowerChar c = [c] := by
  simp only [isPySpace, Bool.or_eq_true, decide_eq_true_eq] at h
  rcases h with
    ((((((((((((((((((((((((((((rfl | rfl) | rfl) | rfl) | rfl) | rfl) | rfl) | rfl) | rfl) | rfl) | rfl) | rfl) | rfl) | rfl) | rfl) | rfl) | rfl) | rfl) | rfl) | rfl) | rfl) | rfl) | rfl) | rfl) | rfl) | rfl) | rfl) | rfl) | rfl) <;> rfl

lemma pyLower_of_space :
    ∀ s : List Char, (∀ c ∈ s, isPySpace c = true) → pyLower s = s := by
  intro s
  induction s with
  | nil => intro _; rfl
  | cons c cs ih =>
    intro h
    show pyLowerChar c ++ pyLower cs = c :: cs
    rw [pyLowerChar_of_space c (h c (by simp)), ih fun x hx => h x (by simp [hx])]
    rfl

/-! ## Lemmas about `findallAlnum` -/

lemma findallAux_nil_of_no_alnum :
    ∀ l : List Char, (∀ c ∈ l, isAlnumAscii c = false) → findallAux l [] = [] := by
  intro l
  induction l with
  | nil => intro _; rfl
  | cons c cs ih =>
    intro h
    have hc : isAlnumAscii c = false := h c (by simp)
    simp only [findallAux, hc]
    simp only [Bool.false_eq_true, if_false, if_pos rfl]
    exact ih fun x hx => h x (by simp [hx])

/-! ## Lemmas about `pyStrip`, `collapseWs` and `rsplitLastSpace` -/

lemma pyStrip_nil_of_all_space (s : List Char)
    (h : ∀ c ∈ s, isPySpace c = true) : pyStrip s = [] := by
  unfold pyStrip
  rw [List.dropWhile_eq_nil_iff.mpr h]
  rfl

lemma collapseAux_head_not_space :
    ∀ l : List Char, ∀ x ∈ (collapseAux l true).head?, isPySpace x = false := by
  intro l
  induction l with
  | nil => intro x hx; simp [collapseAux] at hx
  | cons c cs ih =>
    intro x hx
    by_cases hc : isPySpace c = true
    · simp only [collapseAux, hc, if_true] at hx
      exact ih x hx
    · simp only [collapseAux, if_neg hc] at hx
      simp at hx
      rw [← hx]
      exact Bool.eq_false_iff.mpr hc

lemma collapseAux_chain :
    ∀ (l : List Char) (b : Bool),
      List.Chain' (fun a d => ¬(isPySpace a = true ∧ isPySpace d = true))
        (collapseAux l b) := by
  intro l
  induction l with
  | nil => intro b; simp [collapseAux]
  | cons c cs ih =>
    intro b
    by_cases hc : isPySpace c = true
    · rcases b with _ | _
      · simp only [collapseAux, hc, if_true, Bool.false_eq_true, if_false]
        refine List.chain'_cons'.mpr ⟨?_, ih true⟩
        intro y hy
        intro hcontra
        have hns := collapseAux_head_not_space cs y hy
        rw [hns] at hcontra
        exact Bool.false_ne_true hcontra.2
      · simp only [collapseAux, hc, if_true]
        exact ih true
    · simp only [collapseAux, if_neg hc]
      refine List.chain'_cons'.mpr ⟨?_, ih false⟩
      intro y _
      intro hcontra
      exact hc hcontra.1

lemma chain_isPre {R : Char → Char → Prop} {l1 l2 : List Char}
    (h : List.Chain' R l2) (hp : l1 <+: l2) : List.Chain' R l1 := by
  obtain ⟨t, rfl⟩ := hp
  exact h.left_of_append

lemma rsplitLastSpace_isPre (l : List Char) : rsplitLastSpace l <+: l := by
  unfold rsplitLastSpace
  split
  · have h1 : ((l.reverse.dropWhile fun c => c != ' ').drop 1) <:+ l.reverse :=
      (List.drop_suffix 1 _).trans (List.dropWhile_suffix _)
    have h2 := h1.reverse
    rwa [List.reverse_reverse] at h2
  · exact ⟨[], List.append_nil _⟩

lemma sanitize_all_space (s : List Char) (n : Nat)
    (h : ∀ c ∈ s, isPySpace c = true) : _sanitize_text s n = [] := by
  unfold _sanitize_text
  split
  · rfl
  · rw [pyStrip_nil_of_all_space s h]
    simp [collapseWs, collapseAux]

/-! ## Lemmas about `pySplitlines` -/

set_option maxHeartbeats 1000000 in
lemma splitlinesAux_cons_of_ne (c : Char) (cs cur : List Char)
    (hno : ∀ rest : List Char, c = '\r' → cs = '\n' :: rest → False) :
    splitlinesAux (c :: cs) cur =
      if isLineBoundary c then cur.reverse :: splitlinesAux cs []
      else splitlinesAux cs (c :: cur) := by
  rw [splitlinesAux.eq_def]
  split
  · rename_i h
    exact absurd h (by simp)
  · rename_i heq
    injection heq with h1 h2
    exact (hno _ h1 h2).elim
  · rename_i heq
    injection heq with h1 h2
    subst h1
    subst h2
    rfl

lemma splitlinesAux_head :
    ∀ (l cur : List Char), l ≠ [] ∨ cur ≠ [] →
      (splitlinesAux l cur).head? =
        some (cur.reverse ++ l.takeWhile fun c => !(isLineBoundary c)) := by
  intro l cur
  induction l, cur using splitlinesAux.induct with
  | case1 =>
    intro h
    simp at h
  | case2 cur hcur =>
    intro _
    simp [splitlinesAux, hcur]
  | case3 rest cur ih =>
    intro _
    show (cur.reverse :: splitlinesAux rest []).head? = _
    simp [List.takeWhile_cons, isLineBoundary]
  | case4 c cs cur hno hb ih =>
    intro _
    rw [splitlinesAux_cons_of_ne c cs cur hno, if_pos hb]
    simp [List.takeWhile_cons, hb]
  | case5 c cs cur hno hb ih =>
    intro _
    rw [splitlinesAux_cons_of_ne c cs cur hno, if_neg hb,
      ih (Or.inr (by simp))]
    have hb' : isLineBoundary c = false := Bool.eq_false_iff.mpr hb
    simp [List.takeWhile_cons, hb']

lemma firstLineSrc_eq_takeWhile (caption : List Char) :
    firstLineSrc caption = caption.takeWhile fun c => !(isLineBoundary c) := by
  unfold firstLineSrc pySplitlines
  rcases hc : caption with _ | ⟨c, cs⟩
  · rfl
  · have h := splitlinesAux_head (c :: cs) [] (Or.inl (by simp))
    rcases hs : splitlinesAux (c :: cs) [] with _ | ⟨l0, rest⟩
    · rw [hs] at h
      simp at h
    · rw [hs] at h
      simp only [List.head?_cons, Option.some_inj, List.reverse_nil,
        List.nil_append] at h
      exact h

/-! ## Theorem for claim C6 -/

/-- C6: `_sanitize_text` trims leading/trailing whitespace, collapses
every whitespace run to a single space, and truncates at a word
boundary: empty input yields empty output; the output never exceeds
`max_len` characters and contains no run of two or more whitespace
characters; when the collapsed text fits it is returned as is, when it
exceeds `max_len` the result is the `max_len`-character prefix cut back
to its last space, and when that prefix contains no space the raw
truncation is kept. -/
theorem C6_sanitize_contract (s : List Char) (n : Nat) (hn : 0 < n) :
    _sanitize_text [] n = []
    ∧ (_sanitize_text s n).length ≤ n
    ∧ NoWsRun (_sanitize_text s n)
    ∧ (s ≠ [] → (collapseWs (pyStrip s)).length ≤ n →
        _sanitize_text s n = collapseWs (pyStrip s))
    ∧ (s ≠ [] → n < (collapseWs (pyStrip s)).length →
        _sanitize_text s n = rsplitLastSpace ((collapseWs (pyStrip s)).take n))
    ∧ (¬ ' ' ∈ (collapseWs (pyStrip s)).take n →
        rsplitLastSpace ((collapseWs (pyStrip s)).take n)
          = (collapseWs (pyStrip s)).take n) := by
  refine ⟨rfl, ?_, ?_, ?_, ?_, ?_⟩
  · unfold _sanitize_text
    split
    · simp
    · simp only []
      split

      · calc (rsplitLastSpace ((collapseWs (pyStrip s)).take n)).length
            ≤ ((collapseWs (pyStrip s)).take n).length :=
              (rsplitLastSpace_isPre _).length_le
          _ ≤ n := by simp [List.length_take]
      · omega
  · unfold NoWsRun _sanitize_text
    split
    · simp
    · simp only []
      split
      · exact chain_isPre (collapseAux_chain (pyStrip s) false)
          ((rsplitLastSpace_isPre _).trans ⟨_, List.take_append_drop _ _⟩)
      · exact collapseAux_chain (pyStrip s) false
  · intro hne hle
    unfold _sanitize_text
    rw [if_neg hne, if_neg (by omega)]
  · intro hne hlt
    unfold _sanitize_text
    rw [if_neg hne, if_pos hlt]
  · intro hns
    unfold rsplitLastSpace
    rw [if_neg hns]

/-- Witness for C6 at a concrete string and cap 5. -/
theorem C6_witness :
    _sanitize_text [] 5 = []
    ∧ (_sanitize_text "  hi   there ".toList 5).length ≤ 5
    ∧ NoWsRun (_sanitize_text "  hi   there ".toList 5) := by
  have h := C6_sanitize_contract "  hi   there ".toList 5 (by decide)
  exact ⟨h.1, h.2.1, h.2.2.1⟩

/-! ## Theorems for claims C7 and C10 -/

/-- C7 as stated is false of the code: Python `splitlines` also breaks
lines at `'\r'` (and other boundary characters), not only at `'\n'`.
For the caption `"ab\rcd"` the code takes first line `"ab"`, while the
claim's "text up to the first newline" keeps the whole caption, whose
sanitized form is `"ab cd"`. -/
theorem C7_counterexample :
    (generate_seo_from_caption ("ab\rcd".toList)).1 = "ab".toList
    ∧ titleByNewlineClaim ("ab\rcd".toList) = "ab cd".toList
    ∧ ¬ (generate_seo_from_caption ("ab\rcd".toList)).1
        = titleByNewlineClaim ("ab\rcd".toList) := by
  decide

/-- C7 (amended): the generated title is the caption's first line in the
sense of Python `splitlines` — the text up to the first line-boundary
character (`'\n'`, `'\r'`, `'\x0b'`, `'\x0c'`, `'\x1c'`–`'\x1e'`,
`'\x85'`, U+2028, U+2029), or the whole caption when it has none —
sanitized to at most 70 characters, and if that sanitized first line is
empty the title is exactly `"Short video"`. -/
theorem C7_amended_title_first_line (caption : List Char) :
    (generate_seo_from_caption caption).1 =
      (if _sanitize_text (caption.takeWhile fun c => !(isLineBoundary c)) 70 = []
       then "Short video".toList
       else _sanitize_text (caption.takeWhile fun c => !(isLineBoundary c)) 70) := by
  simp only [generate_seo_from_caption]
  rw [firstLineSrc_eq_takeWhile]

/-- C10: for a non-empty caption consisting only of whitespace,
`generate_seo_from_caption` returns title `"Short video"`, a description
that is exactly the fixed call-to-action footer with nothing before it,
and an empty tag list — the same result as for the empty caption. -/
theorem C10_whitespace_caption (caption : List Char) (h1 : caption ≠ [])
    (h2 : ∀ c ∈ caption, isPySpace c = true) :
    generate_seo_from_caption caption = ("Short video".toList, ctaFooter, [])
    ∧ generate_seo_from_caption caption = generate_seo_from_caption [] := by
  have hstrip : pyStrip caption = [] := pyStrip_nil_of_all_space caption h2
  have htitle : _sanitize_text (firstLineSrc caption) 70 = [] := by
    rw [firstLineSrc_eq_takeWhile]
    apply sanitize_all_space
    intro c hc
    exact h2 c (List.IsPrefix.subset ⟨_, List.takeWhile_append_dropWhile _ _⟩ hc)
  have htags : findallAlnum (pyLower caption) = [] := by
    rw [pyLower_of_space caption h2]
    apply findallAux_nil_of_no_alnum
    intro c hc
    exact isPySpace_not_alnum c (h2 c hc)
  have hmain : generate_seo_from_caption caption =
      ("Short video".toList, ctaFooter, []) := by
    simp only [generate_seo_from_caption, htitle, hstrip, htags]
    simp [tagsLoop]
  exact ⟨hmain, by rw [hmain]; rfl⟩

/-- Witness for C10 at the whitespace-only caption `" \n"`. -/
theorem C10_witness :
    generate_seo_from_caption (" \n".toList) =
      ("Short video".toList, ctaFooter, []) :=
  (C10_whitespace_caption (" \n".toList) (by decide) (by decide)).1

/-! ## Lemmas for claim C5 -/

lemma dedupKeepFirst_filter (q : List Char → Bool) :
    ∀ l, dedupKeepFirst (l.filter q) = (dedupKeepFirst l).filter q := by
  intro l
  induction l with
  | nil => rfl
  | cons x xs ih =>
    by_cases hq : q x = true
    · rw [List.filter_cons_of_pos hq]
      simp only [dedupKeepFirst]
      rw [ih, List.filter_cons_of_pos hq]
      congr 1
      rw [List.filter_filter, List.filter_filter]
      simp [Bool.and_comm]
    · have hq' : q x = false := Bool.eq_false_iff.mpr hq
      rw [List.filter_cons_of_neg (by simp [hq'])]
      rw [ih]
      simp only [dedupKeepFirst]
      rw [List.filter_cons_of_neg (by simp [hq']), List.filter_filter]
      apply List.filter_congr
      intro a _
      by_cases ha : a = x
      · subst ha
        simp [hq']
      · simp [ha]

lemma tagsLoop_spec :
    ∀ (ws acc : List (List Char)), acc.length < 15 →
      tagsLoop ws acc =
        (acc ++ dedupKeepFirst (ws.filter
          (fun w => qualifies w && !(decide (w ∈ acc))))).take 15 := by
  intro ws
  induction ws with
  | nil =>
    intro acc h
    simp only [tagsLoop, List.filter_nil, dedupKeepFirst, List.append_nil]
    rw [List.take_of_length_le (le_of_lt h)]
  | cons w ws ih =>
    intro acc h
    by_cases h3 : w.length < 3
    · have hq : qualifies w = false := by
        unfold qualifies
        rw [decide_eq_false (by omega)]
        simp
      simp only [tagsLoop, if_pos h3]
      rw [ih acc h, List.filter_cons_of_neg (by simp [hq])]
    · by_cases hd : isDigitStr w = true
      · have hq : qualifies w = false := by
          unfold qualifies
          rw [hd]
          simp
        simp only [tagsLoop, if_neg h3, if_pos hd]
        rw [ih acc h, List.filter_cons_of_neg (by simp [hq])]
      · by_cases hs : w ∈ stopwords
        · have hq : qualifies w = false := by
            unfold qualifies
            rw [decide_eq_true hs]
            simp
          simp only [tagsLoop, if_neg h3, if_neg hd, if_pos hs]
          rw [ih acc h, List.filter_cons_of_neg (by simp [hq])]
        · have hq : qualifies w = true := by
            unfold qualifies
            rw [decide_eq_true (by omega : 3 ≤ w.length),
              Bool.eq_false_iff.mpr hd, decide_eq_false hs]
            rfl
          simp only [tagsLoop, if_neg h3, if_neg hd, if_neg hs]
          by_cases hw : w ∈ acc
          · rw [if_pos hw, if_neg (by omega : ¬ 15 ≤ acc.length)]
            rw [ih acc h, List.filter_cons_of_neg (by simp [hq, hw])]
          · rw [if_neg hw]
            rw [List.filter_cons_of_pos (by simp [hq, hw])]
            simp only [dedupKeepFirst]
            by_cases hfull : 15 ≤ (acc ++ [w]).length
            · rw [if_pos hfull]
              have hlen : acc.length = 14 := by
                simp only [List.length_append, List.length_singleton] at hfull
                omega
              rw [List.take_append_eq_append_take,
                List.take_of_length_le (by omega), hlen]
              simp
            · rw [if_neg hfull]
              have h' : (acc ++ [w]).length < 15 := by omega
              rw [ih (acc ++ [w]) h']
              have hsplit : ws.filter (fun x => qualifies x && !(decide (x ∈ acc ++ [w])))
                  = (ws.filter (fun x => qualifies x && !(decide (x ∈ acc)))).filter
                      (fun x => !(decide (x = w))) := by
                rw [List.filter_filter]
                apply List.filter_congr
                intro x _
                by_cases hx : x = w
                · subst hx
                  simp
                · simp [hx, List.mem_append]
              rw [hsplit, dedupKeepFirst_filter, List.append_assoc]
              rfl

/-- C5 as stated is false of the code: the code lowercases the caption
before extracting the alphanumeric runs, and Python `lower()` folds
U+212A KELVIN SIGN into the ASCII letter `k`.  For the caption
`"AB\u212ACD"` the program computes `caption.lower() = "abkcd"` and
returns the single tag `"abkcd"`, while the claim's reading — runs of
ASCII letters/digits extracted from the caption, then lowercased —
yields the tokens `"ab"` and `"cd"`, both discarded as too short, hence
no tags. -/
theorem C5_counterexample :
    (generate_seo_from_caption ("AB\u212ACD".toList)).2.2 = ["abkcd".toList]
    ∧ tagsByClaimC5 ("AB\u212ACD".toList) = []
    ∧ ¬ (generate_seo_from_caption ("AB\u212ACD".toList)).2.2
        = tagsByClaimC5 ("AB\u212ACD".toList) := by
  decide

/-- C5 (amended): for every caption, the generated tags are exactly the
maximal runs of ASCII letters/digits of the lowercased caption (Python
`lower()` is applied to the whole caption first, and may fold non-ASCII
characters such as U+212A KELVIN SIGN into ASCII letters), with tokens
shorter than 3 characters, purely numeric tokens and stopwords removed,
de-duplicated keeping first occurrences in order of first appearance,
and capped at the first 15 such tokens. -/
theorem C5_amended_tags (caption : List Char) :
    (generate_seo_from_caption caption).2.2 =
      (dedupKeepFirst ((findallAlnum (pyLower caption)).filter
        qualifies)).take 15 := by
  simp only [generate_seo_from_caption]
  rw [tagsLoop_spec _ [] (by norm_num), List.nil_append]
  congr 2
  apply List.filter_congr
  intro x _
  simp

end IgToYt
